import Mathlib

/-!
Shallow embedding of the request/caching/retry core of `weather_app.py`
(repository goodwill-v/weather_app), together with proofs about the
behaviour of its operations.

Modelling conventions, used throughout:
* JSON numbers (Python ints/floats) are modelled as rationals `ℚ`.
* Python `None` is `Option.none`; a function that can raise an exception
  returns `Except Unit _` or `Option _` (with `none`/`error` for the raise).
* Side effects (HTTP requests, cache file reads/writes, user prompts) are
  made explicit as event traces, and the outcomes of collaborator calls
  (the HTTP layer, the cache file) are supplied as explicit oracle values.
* `str.strip().casefold()` / `str.lower()` are modelled character-wise
  (faithful on the ASCII range).
-/

/-- Opaque weather payload (the weather-response JSON dict); its internal
structure is irrelevant to the properties proved here. -/
abbrev Payload := ℕ

/-- One 3-hour forecast entry, flattening the sub-dicts the code reads:
`dtTxt` is the optional `dt_txt` string, `temp`/`humidity`/`pressure` model
the optional fields of `item["main"]`, `windSpeed` models
`item["wind"]["speed"]`, and `description` models
`item["weather"][0]["description"]`.  A field is `none` when the
corresponding key is absent. -/
structure ForecastItem where
  dtTxt : Option String
  temp : Option ℚ
  humidity : Option ℚ
  pressure : Option ℚ
  windSpeed : Option ℚ
  description : Option String
deriving DecidableEq

/-- Outcome of one `requests.get` attempt inside `_request_with_retries`:
either a response with an HTTP status code (and, for the forecast endpoint,
the optional `list` field of its JSON body), or a network-level
`requests.exceptions.RequestException`. -/
inductive AttemptOutcome where
  | resp (status : ℕ) (listField : Option (List ForecastItem))
  | exc
deriving DecidableEq

/-- The retry condition of `_request_with_retries`:
`resp.status_code == 429 or 500 <= resp.status_code <= 599`. -/
def transientStatus (s : ℕ) : Bool :=
  (s == 429) || (decide (500 ≤ s) && decide (s ≤ 599))

/-- An attempt counts as transiently failing when its status is retryable
or when it raised a network-level exception. -/
def transientOutcome : AttemptOutcome → Bool
  | .resp s _ => transientStatus s
  | .exc => true

/-- Result of `_request_with_retries`: either a returned response (status
plus body list field) or a raised `TransientRequestError`. -/
inductive ReqResult where
  | returned (status : ℕ) (listField : Option (List ForecastItem))
  | transient
deriving DecidableEq

/-- Observable behaviour of one `_request_with_retries` call: the final
result, how many HTTP attempts were issued, and the performed sleeps in
order. -/
structure ReqTrace where
  result : ReqResult
  attemptsMade : ℕ
  sleeps : List ℕ
deriving DecidableEq

/-- The loop body of `_request_with_retries`: `attempt` is the current
loop index (used to index the outcome oracle `o`), and the list argument
is the still-unused suffix of `backoffs` (so `attempt < len(backoffs)`
holds exactly when the list is nonempty). -/
def retryGo (o : ℕ → AttemptOutcome) (attempt : ℕ) : List ℕ → ReqTrace
  | [] =>
    -- last attempt: a transient failure raises TransientRequestError
    match o attempt with
    | .resp s lf =>
      if transientStatus s then ⟨.transient, 1, []⟩ else ⟨.returned s lf, 1, []⟩
    | .exc => ⟨.transient, 1, []⟩
  | b :: rest =>
    match o attempt with
    | .resp s lf =>
      if transientStatus s then
        let t := retryGo o (attempt + 1) rest
        ⟨t.result, t.attemptsMade + 1, b :: t.sleeps⟩
      else ⟨.returned s lf, 1, []⟩
    | .exc =>
      let t := retryGo o (attempt + 1) rest
      ⟨t.result, t.attemptsMade + 1, b :: t.sleeps⟩

/-- The source's `backoffs = [1, 2, 4]` (seconds). -/
def backoffs : List ℕ := [1, 2, 4]

/-- `_request_with_retries(url)`, with the per-attempt outcomes supplied by
the oracle `o` (attempt `i` observes `o i`). -/
def _request_with_retries (o : ℕ → AttemptOutcome) : ReqTrace :=
  retryGo o 0 backoffs

/-- `get_forecast_5d3h(lat, lon)`: issues the request through
`_request_with_retries` (a raised `TransientRequestError` propagates —
there is no `try/except` in the source), returns `data.get('list', [])`
on HTTP 200 and `[]` on any other returned status. -/
def get_forecast_5d3h (o : ℕ → AttemptOutcome) : Except Unit (List ForecastItem) :=
  match (_request_with_retries o).result with
  | .transient => .error ()
  | .returned s lf => if s == 200 then .ok (lf.getD []) else .ok []

/-- Helper for stating refutations: whether a `get_forecast_5d3h` call
ended in a raised exception rather than a returned list. -/
def forecastRaised : Except Unit (List ForecastItem) → Bool
  | .error _ => true
  | .ok _ => false

/-- Python `str.lower()` / `str.casefold()` modelled character-wise over
the string's character list (faithful on the ASCII range). -/
def pyLower (s : String) : String := ⟨s.data.map Char.toLower⟩

/-- Python `str.strip()`: drop whitespace from both ends. -/
def pyStrip (s : String) : String :=
  ⟨((s.data.dropWhile Char.isWhitespace).reverse.dropWhile Char.isWhitespace).reverse⟩

/-- `value.strip().casefold()` as used by `_cache_matches_request`. -/
def pyNormalize (s : String) : String := pyLower (pyStrip s)

/-- `_floats_close(a, b, tol=1e-6)`. -/
def _floats_close (a b : ℚ) : Bool := decide (|a - b| ≤ 1 / 1000000)

/-- `_cache_matches_request(cache, city=..., lat=..., lon=...)`.
`cacheCity` is the entry's `"city"` value when it is a string,
`cacheLat`/`cacheLon` its `"lat"`/`"lon"` values when they are numbers
(the source's `isinstance` checks). -/
def _cache_matches_request (cacheCity : Option String) (cacheLat cacheLon : Option ℚ)
    (city : Option String) (lat lon : Option ℚ) : Bool :=
  match city, cacheCity with
  | some q, some c => pyNormalize c == pyNormalize q
  | _, _ =>
    match lat, lon, cacheLat, cacheLon with
    | some la, some lo, some cla, some clo =>
      _floats_close cla la && _floats_close clo lo
    | _, _, _, _ => false

/-- A cache entry as written by `_save_cache`: it always stores the
resolved coordinates, and stores the city name exactly when the lookup was
city-keyed. -/
structure SavedCacheEntry where
  city : Option String
  lat : ℚ
  lon : ℚ
  fetchedAt : ℚ
  data : Payload
deriving DecidableEq

/-- `_is_fresh(fetched_at_iso, max_age_seconds)`. `fetchedAt` is the
result of `_parse_iso_datetime` (in seconds, `none` on parse failure) and
`now` the current UTC time in seconds; the source computes
`age = now - fetched_at` and returns `0 <= age <= max_age_seconds`. -/
def _is_fresh (now : ℚ) (fetchedAt : Option ℚ) (maxAge : ℚ) : Bool :=
  match fetchedAt with
  | none => false
  | some t => decide ((0 : ℚ) ≤ now - t) && decide (now - t ≤ maxAge)

/-- `MAX_CACHE_AGE_SECONDS = 3 * 60 * 60`. -/
def MAX_CACHE_AGE_SECONDS : ℚ := 3 * 60 * 60

/-- A JSON value as far as `analyze_air_pollution` can observe one:
`null`, a number, or a nested object (list of key/value pairs in
insertion order, keys unique). -/
inductive CompVal where
  | vnull : CompVal
  | vnum : ℚ → CompVal
  | vobj : List (String × CompVal) → CompVal

/-- The `thresholds` table of `analyze_air_pollution`, entries in source
order; `none` values are the source's `None` entries (NO and NH3). -/
def thresholdsTable : List (String × Option ℚ) :=
  [("co", some 9400), ("no", none), ("no2", some 150), ("o3", some 140),
   ("so2", some 250), ("pm2_5", some 50), ("pm10", some 100), ("nh3", none)]

/-- `thresholds.get(key_lower)`: absent keys and `None`-valued entries
both yield `none` (and both make `if threshold and ...` skip the entry). -/
def thresholdOf (k : String) : Option ℚ := (thresholdsTable.lookup k).join

/-- `aqi_levels.get(aqi)` — the level-name table, keyed by numeric
equality as in Python. -/
def aqiLevelName (q : ℚ) : Option String :=
  if q = 1 then some "Хорошо"
  else if q = 2 then some "Удовлетворительно"
  else if q = 3 then some "Умеренно"
  else if q = 4 then some "Плохо"
  else if q = 5 then some "Очень плохо"
  else none

/-- One iteration of the AQI-derivation loop
(`for key, value in comps.items(): ...` updating `max_level`).  Returns
`none` when the Python code would raise (comparing a non-numeric value
against a numeric threshold). -/
def deriveLevelStep (acc : ℚ) (kv : String × CompVal) : Option ℚ :=
  match kv.2 with
  | .vnull => some acc
  | .vnum v =>
    match thresholdOf (pyLower kv.1) with
    | some t =>
      if t = 0 then some acc  -- `if threshold and ...`: a zero threshold is falsy
      else if v > t then
        (if v > t * (3 / 2) then some (max acc 5) else if v > t then some (max acc 4) else some acc)
      else some acc
    | none => some acc
  | .vobj _ =>
    match thresholdOf (pyLower kv.1) with
    | some t => if t = 0 then some acc else none  -- dict > number raises TypeError
    | none => some acc

/-- One entry of the `exceeded_parameters` list:
`{component, value, threshold, excess}`. -/
structure ExceededParam where
  component : String
  value : ℚ
  threshold : ℚ
  excess : ℚ
deriving DecidableEq

/-- Python `round(q, 2)` (round-half-to-even at two decimals). -/
def round2 (q : ℚ) : ℚ :=
  let s := q * 100
  let f : ℤ := Int.floor s
  let r : ℚ := s - f
  let n : ℤ :=
    if r < 1 / 2 then f
    else if 1 / 2 < r then f + 1
    else if f % 2 = 0 then f else f + 1
  (n : ℚ) / 100

/-- One iteration of the exceeded-parameters loop. -/
def exceededStep (acc : List ExceededParam) (kv : String × CompVal) :
    Option (List ExceededParam) :=
  match kv.2 with
  | .vnull => some acc
  | .vnum v =>
    match thresholdOf (pyLower kv.1) with
    | some t =>
      if t = 0 then some acc
      else if v > t then some (acc ++ [⟨kv.1, v, t, round2 (v - t)⟩]) else some acc
    | none => some acc
  | .vobj _ =>
    match thresholdOf (pyLower kv.1) with
    | some t => if t = 0 then some acc else none
    | none => some acc

/-- The result dict of `analyze_air_pollution`.  `aqi` is the value of
the always-present `"aqi"` key (`none` models JSON `null`); for the other
fields, `none` means the key is absent from the returned dict. -/
structure AirAnalysis where
  status : String
  aqi : Option ℚ
  levelName : Option String
  exceededParams : Option (List ExceededParam)
  componentsOut : Option CompVal
  thresholdsOut : Option (List (String × Option ℚ))

/-- The tail of `analyze_air_pollution` once `aqi` is a number and `comps`
is fixed: builds `status`/`level_name`, the `exceeded_parameters` list when
`aqi >= 4` (which iterates `comps` and therefore requires it to be a
dict), and the extended fields. -/
def analyzeFinish (aqi : ℚ) (comps : CompVal) (extended : Bool) : Option AirAnalysis :=
  let base : AirAnalysis :=
    ⟨(aqiLevelName aqi).getD "Неизвестно", some aqi,
      some ((aqiLevelName aqi).getD "Неизвестно"), none, none, none⟩
  let withExceeded : Option AirAnalysis :=
    if aqi ≥ 4 then
      match comps with
      | .vobj entries =>
        (entries.foldlM exceededStep []).map
          (fun ex => { base with exceededParams := some ex })
      | _ => none  -- `comps.items()` on a non-dict raises
    else some base
  withExceeded.map
    (fun r =>
      if extended then
        { r with componentsOut := some comps, thresholdsOut := some thresholdsTable }
      else r)

/-- The `aqi is None` path: derive the level from `comps` (which must be a
dict to be iterable), then finish. -/
def analyzeDerive (comps : CompVal) (extended : Bool) : Option AirAnalysis :=
  match comps with
  | .vobj entries => (entries.foldlM deriveLevelStep 1).bind (fun a => analyzeFinish a comps extended)
  | _ => none

/-- `analyze_air_pollution(components, extended)` where the argument is a
JSON dict (key/value list).  Returns `none` when the Python code would
raise at runtime.  Mirrors the source: empty dict → no-data result; a
`'main'` key (which must be a dict) supplies `aqi` and switches `comps` to
the `'components'` value (default `{}`); otherwise the whole argument is
used as `comps`. -/
def analyze_air_pollution (arg : List (String × CompVal)) (extended : Bool) :
    Option AirAnalysis :=
  if arg.isEmpty then some ⟨"Нет данных", none, none, none, none, none⟩
  else
    match arg.lookup "main" with
    | some (.vobj m) =>
      let comps : CompVal :=
        match arg.lookup "components" with
        | some v => v
        | none => .vobj []
      (match m.lookup "aqi" with
       | some (.vnum q) => analyzeFinish q comps extended
       | some .vnull => analyzeDerive comps extended
       | none => analyzeDerive comps extended
       | some (.vobj _) => none)  -- unhashable aqi: `aqi_levels.get(aqi)` raises
    | some _ => none  -- `components['main'].get` on a non-dict raises
    | none => analyzeDerive (.vobj arg) extended

/-- Modelled from the spec (refinement reference for claim C7): the
per-pollutant level the specification describes — 5 when the
concentration exceeds 1.5× its threshold, 4 when it exceeds the threshold
but is at most 1.5× it, otherwise 1; pollutants without a threshold never
raise the level. -/
def specPollutantLevel (kv : String × CompVal) : ℚ :=
  match kv.2 with
  | .vnum v =>
    match thresholdOf (pyLower kv.1) with
    | some t => if v > t * (3 / 2) then 5 else if v > t then 4 else 1
    | none => 1
  | _ => 1

/-- Accumulator pass for Python `s.split()`: `cur` holds the reversed
current token. -/
def pyTokensGo (cur : List Char) : List Char → List (List Char)
  | [] => if cur.isEmpty then [] else [cur.reverse]
  | c :: rest =>
    if c.isWhitespace then
      if cur.isEmpty then pyTokensGo [] rest
      else cur.reverse :: pyTokensGo [] rest
    else pyTokensGo (c :: cur) rest

/-- Python `s.split()`: split on whitespace runs, discarding empty
pieces. -/
def pySplitWs (s : String) : List String :=
  (pyTokensGo [] s.data).map (fun cs => ⟨cs⟩)

/-- `dt_txt.split()[0]` — `none` when the split is empty (Python would
raise `IndexError`, possible only for a truthy all-whitespace string). -/
def firstTok (s : String) : Option String := (pySplitWs s).head?

/-- The `dt_txt` string of an item, as read by
`item.get('dt_txt', '')`. -/
def dtTxtOf (it : ForecastItem) : String := it.dtTxt.getD ""

/-- Append `it` to the bucket keyed `date`, creating the bucket at the end
when absent — the `grouped[date].append(item)` of a `defaultdict` whose
insertion order is preserved (identical in effect to the
`setdefault`-based copy in `bot.py`). -/
def addToBucket (acc : List (String × List ForecastItem)) (date : String)
    (it : ForecastItem) : List (String × List ForecastItem) :=
  match acc with
  | [] => [(date, [it])]
  | (d, b) :: rest =>
    if d = date then (d, b ++ [it]) :: rest else (d, b) :: addToBucket rest date it

/-- The loop of `_group_forecast_by_days`; `none` models an `IndexError`
from `dt_txt.split()[0]`. -/
def groupGo (acc : List (String × List ForecastItem)) :
    List ForecastItem → Option (List (String × List ForecastItem))
  | [] => some acc
  | it :: rest =>
    if (dtTxtOf it).isEmpty then groupGo acc rest
    else
      match firstTok (dtTxtOf it) with
      | none => none
      | some date => groupGo (addToBucket acc date it) rest

/-- `_group_forecast_by_days(forecast_list)`: buckets the items by the
date portion of `dt_txt`, skipping items whose `dt_txt` is missing or
empty; buckets appear in first-seen order. -/
def _group_forecast_by_days (l : List ForecastItem) :
    Option (List (String × List ForecastItem)) :=
  groupGo [] l

/-- Total number of occurrences of `x` across all buckets of `g`. -/
def countAll (g : List (String × List ForecastItem)) (x : ForecastItem) : ℕ :=
  (g.map (fun p => p.2.count x)).sum

/-- First-seen-order deduplication of a list. -/
def dedupFirst (l : List String) : List String :=
  l.foldl (fun acc d => if d ∈ acc then acc else acc ++ [d]) []

/-- The date keys contributed by a forecast list, in encounter order
(items with missing/empty `dt_txt` contribute nothing). -/
def datesOf (l : List ForecastItem) : List String :=
  l.filterMap (fun it => if (dtTxtOf it).isEmpty then none else firstTok (dtTxtOf it))

/-- The `temps` list accumulated by `_calculate_daily_average` (in order,
one entry per item whose `main` carries `temp`). -/
def temps (l : List ForecastItem) : List ℚ := l.filterMap ForecastItem.temp

/-- The `humidities` list of `_calculate_daily_average`. -/
def humidities (l : List ForecastItem) : List ℚ := l.filterMap ForecastItem.humidity

/-- The `pressures` list of `_calculate_daily_average`. -/
def pressures (l : List ForecastItem) : List ℚ := l.filterMap ForecastItem.pressure

/-- The `wind_speeds` list of `_calculate_daily_average`. -/
def windSpeeds (l : List ForecastItem) : List ℚ := l.filterMap ForecastItem.windSpeed

/-- The `descriptions` list of `_calculate_daily_average`. -/
def descriptions (l : List ForecastItem) : List String :=
  l.filterMap ForecastItem.description

/-- The local `avg` helper: `sum(values)/len(values) if values else None`. -/
def pyAvg (vs : List ℚ) : Option ℚ :=
  if vs.isEmpty then none else some (vs.sum / (vs.length : ℚ))

/-- Python `min(values)` on a nonempty list (`none` on empty, where the
source never calls it). -/
def pyMin (vs : List ℚ) : Option ℚ :=
  match vs with
  | [] => none
  | h :: t => some (t.foldl min h)

/-- Python `max(values)` on a nonempty list. -/
def pyMax (vs : List ℚ) : Option ℚ :=
  match vs with
  | [] => none
  | h :: t => some (t.foldl max h)

/-- Python `max(iterable, key=all.count)`: keeps the first element of the
iterable attaining the maximal count (a later element replaces the
current best only when its key is strictly greater). -/
def pyMaxByCount (all : List String) : List String → Option String
  | [] => none
  | h :: t => some (t.foldl (fun best x => if all.count x > all.count best then x else best) h)

/-- The dict returned by `_calculate_daily_average` on a nonempty bucket;
`none` fields model `None` values (the keys are always present). -/
structure DailySummary where
  tempAvg : Option ℚ
  tempMin : Option ℚ
  tempMax : Option ℚ
  humidityAvg : Option ℚ
  pressureAvg : Option ℚ
  windSpeedAvg : Option ℚ
  description : String
  forecasts : List ForecastItem
deriving DecidableEq

/-- `_calculate_daily_average(day_forecasts)`, parameterised by
`setOrder`: the (hash-dependent, hence unspecified) iteration order of
Python's `set(descriptions)`, over which the source's
`max(set(descriptions), key=descriptions.count)` iterates.  The theorems
constrain `setOrder` to be a duplicate-free enumeration of
`descriptions`.  An empty bucket yields `none` (the empty dict `{}`). -/
def _calculate_daily_average (setOrder : List String) (l : List ForecastItem) :
    Option DailySummary :=
  if l.isEmpty then none
  else
    some
      { tempAvg := pyAvg (temps l)
        tempMin := pyMin (temps l)
        tempMax := pyMax (temps l)
        humidityAvg := pyAvg (humidities l)
        pressureAvg := pyAvg (pressures l)
        windSpeedAvg := pyAvg (windSpeeds l)
        description :=
          if (descriptions l).isEmpty then "N/A"
          else
            match pyMaxByCount (descriptions l) setOrder with
            | some d => d
            | none => "N/A"  -- unreachable when setOrder enumerates a nonempty set
        forecasts := l }

/-- Observable side effects of the gateway/interactive layer. -/
inductive Ev where
  | geocodeHttp   -- HTTP request issued by get_coordinates
  | weatherHttp   -- HTTP request issued by get_weather_by_coordinates
  | cacheWrite    -- _save_cache writes the cache file
  | cacheRead     -- _load_cache reads the cache file
  | askUser       -- the interactive cache-fallback prompt
deriving DecidableEq

/-- Outcomes of the gateway's collaborator calls for one interaction:
`geocode` is what `get_coordinates(city)` produces (`error` = raised
`TransientRequestError`, `ok none` = returned `None`, `ok (some _)` =
coordinates), and `weatherByCoords` what `get_weather_by_coordinates`
produces (`ok none` = returned `None` on a non-200 status). -/
structure GwEnv where
  geocode : Except Unit (Option (ℚ × ℚ))
  weatherByCoords : Except Unit (Option Payload)

/-- `get_current_weather(city, latitude, longitude)` with its HTTP and
cache-file effects recorded in order.  `if city:` is Python truthiness
(`None` and `""` are falsy); when both branches are skipped the function
falls through and returns `None` with no effect. -/
def get_current_weather (env : GwEnv) (city : Option String) (lat lon : Option ℚ) :
    Except Unit (Option Payload) × List Ev :=
  if !(city.getD "").isEmpty then
    match env.geocode with
    | .error _ => (.error (), [Ev.geocodeHttp])
    | .ok none => (.ok none, [Ev.geocodeHttp])
    | .ok (some _) =>
      match env.weatherByCoords with
      | .error _ => (.error (), [Ev.geocodeHttp, Ev.weatherHttp])
      | .ok (some w) => (.ok (some w), [Ev.geocodeHttp, Ev.weatherHttp, Ev.cacheWrite])
      | .ok none => (.ok none, [Ev.geocodeHttp, Ev.weatherHttp])
  else if lat.isSome && lon.isSome then
    match env.weatherByCoords with
    | .error _ => (.error (), [Ev.weatherHttp])
    | .ok (some w) => (.ok (some w), [Ev.weatherHttp, Ev.cacheWrite])
    | .ok none => (.ok none, [Ev.weatherHttp])
  else (.ok none, [])

/-- A cache dict as produced by `_load_cache` when a file is present.
`fetchedAt = some p` iff the `"fetched_at"` value is a string (the
source's `isinstance` check), with `p` its `_parse_iso_datetime` result;
`data = some w` iff the `"data"` value is a dict. -/
structure LoadedCache where
  city : Option String
  lat : Option ℚ
  lon : Option ℚ
  fetchedAt : Option (Option ℚ)
  data : Option Payload
deriving DecidableEq

/-- `answer.strip().lower() in ("", "y", "yes", "д", "да")`. -/
def answerYes (s : String) : Bool :=
  ["", "y", "yes", "д", "да"].contains (pyLower (pyStrip s))

/-- The `try`-block dispatch of `_fetch_weather_interactive`: which live
fetch is attempted, if any (`none` when neither a city nor a full
coordinate pair is supplied). -/
def liveAttempt (env : GwEnv) (city : Option String) (lat lon : Option ℚ) :
    Option (Except Unit (Option Payload) × List Ev) :=
  match city with
  | some c => some (get_current_weather env (some c) none none)
  | none =>
    match lat, lon with
    | some _, some _ => some (get_current_weather env none lat lon)
    | _, _ => none

/-- `_fetch_weather_interactive(city=..., lat=..., lon=...)`: attempts the
live fetch; on a raised `TransientRequestError` it loads the cache
(`cache = none` models a missing/empty/unreadable cache file), and offers
the cached payload when the entry is fresh and matches the request and
the user accepts.  `now` is the current time in seconds and `ans` is the
user's raw answer string. -/
def _fetch_weather_interactive (env : GwEnv) (cache : Option LoadedCache) (now : ℚ)
    (ans : String) (city : Option String) (lat lon : Option ℚ) :
    Option Payload × List Ev :=
  match liveAttempt env city lat lon with
  | none => (none, [])
  | some (Except.ok w, tr) => (w, tr)
  | some (Except.error _, tr) =>
    let tr2 := tr ++ [Ev.cacheRead]
    match cache with
    | none => (none, tr2)
    | some ce =>
      if _is_fresh now ce.fetchedAt.join MAX_CACHE_AGE_SECONDS &&
          _cache_matches_request ce.city ce.lat ce.lon city lat lon then
        let tr3 := tr2 ++ [Ev.askUser]
        if answerYes ans then (ce.data, tr3) else (none, tr3)
      else (none, tr2)

/-! ## Properties of the retry loop -/

theorem retryGo_bounds (bs : List ℕ) (o : ℕ → AttemptOutcome) (n : ℕ) :
    1 ≤ (retryGo o n bs).attemptsMade ∧ (retryGo o n bs).attemptsMade ≤ bs.length + 1 := by
  induction bs generalizing n with
  | nil =>
    cases h : o n with
    | resp s lf =>
      by_cases hs : transientStatus s = true
      · simp [retryGo, h, hs]
      · simp [retryGo, h, hs]
    | exc => simp [retryGo, h]
  | cons b rest ih =>
    cases h : o n with
    | resp s lf =>
      by_cases hs : transientStatus s = true
      · have hr := ih (n + 1)
        simp only [retryGo, h, hs, if_true, List.length_cons]
        omega
      · simp [retryGo, h, hs]
    | exc =>
      have hr := ih (n + 1)
      simp only [retryGo, h, List.length_cons]
      omega

theorem retryGo_sleeps (bs : List ℕ) (o : ℕ → AttemptOutcome) (n : ℕ) :
    (retryGo o n bs).sleeps = bs.take ((retryGo o n bs).attemptsMade - 1) := by
  induction bs generalizing n with
  | nil =>
    cases h : o n with
    | resp s lf =>
      by_cases hs : transientStatus s = true
      · simp [retryGo, h, hs]
      · simp [retryGo, h, hs]
    | exc => simp [retryGo, h]
  | cons b rest ih =>
    cases h : o n with
    | resp s lf =>
      by_cases hs : transientStatus s = true
      · have hb := retryGo_bounds rest o (n + 1)
        have hr := ih (n + 1)
        simp only [retryGo, h, hs, if_true]
        have : (retryGo o (n + 1) rest).attemptsMade + 1 - 1 =
            ((retryGo o (n + 1) rest).attemptsMade - 1) + 1 := by omega
        rw [this, List.take_succ_cons, hr]
      · simp [retryGo, h, hs]
    | exc =>
      have hb := retryGo_bounds rest o (n + 1)
      have hr := ih (n + 1)
      simp only [retryGo, h]
      have : (retryGo o (n + 1) rest).attemptsMade + 1 - 1 =
          ((retryGo o (n + 1) rest).attemptsMade - 1) + 1 := by omega
      rw [this, List.take_succ_cons, hr]

theorem retryGo_transient_iff (bs : List ℕ) (o : ℕ → AttemptOutcome) (n : ℕ) :
    (retryGo o n bs).result = ReqResult.transient ↔
      ∀ i, i ≤ bs.length → transientOutcome (o (n + i)) = true := by
  induction bs generalizing n with
  | nil =>
    cases h : o n with
    | resp s lf =>
      by_cases hs : transientStatus s = true
      · simp only [retryGo, h, hs, if_true]
        constructor
        · intro _ i hi
          have hi0 : i = 0 := Nat.le_zero.mp hi
          subst hi0
          simpa [transientOutcome, h] using hs
        · intro _; trivial
      · simp only [retryGo, h, hs, if_false]
        constructor
        · intro hres; exact absurd hres (by simp)
        · intro hall
          have h0 := hall 0 (Nat.le_refl 0)
          rw [Nat.add_zero, h] at h0
          simp only [transientOutcome] at h0
          exact absurd h0 hs
    | exc =>
      simp only [retryGo, h]
      constructor
      · intro _ i hi
        have hi0 : i = 0 := Nat.le_zero.mp hi
        subst hi0
        simp [transientOutcome, h]
      · intro _; trivial
  | cons b rest ih =>
    cases h : o n with
    | resp s lf =>
      by_cases hs : transientStatus s = true
      · simp only [retryGo, h, hs, if_true, List.length_cons]
        rw [ih (n + 1)]
        constructor
        · intro hall i hi
          cases i with
          | zero => simpa [transientOutcome, h] using hs
          | succ j =>
            have := hall j (by omega)
            simpa [Nat.add_comm, Nat.add_assoc, Nat.add_left_comm] using this
        · intro hall i hi
          have := hall (i + 1) (by omega)
          simpa [Nat.add_comm, Nat.add_assoc, Nat.add_left_comm] using this
      · simp only [retryGo, h, hs, if_false, List.length_cons]
        constructor
        · intro hres; exact absurd hres (by simp)
        · intro hall
          have h0 := hall 0 (by omega)
          rw [Nat.add_zero, h] at h0
          simp only [transientOutcome] at h0
          exact absurd h0 hs
    | exc =>
      simp only [retryGo, h, List.length_cons]
      rw [ih (n + 1)]
      constructor
      · intro hall i hi
        cases i with
        | zero => simp [transientOutcome, h]
        | succ j =>
          have := hall j (by omega)
          simpa [Nat.add_comm, Nat.add_assoc, Nat.add_left_comm] using this
      · intro hall i hi
        have := hall (i + 1) (by omega)
        simpa [Nat.add_comm, Nat.add_assoc, Nat.add_left_comm] using this

theorem retryGo_returned (bs : List ℕ) (o : ℕ → AttemptOutcome) (n : ℕ)
    (s : ℕ) (lf : Option (List ForecastItem))
    (hres : (retryGo o n bs).result = ReqResult.returned s lf) :
    o (n + ((retryGo o n bs).attemptsMade - 1)) = AttemptOutcome.resp s lf ∧
      transientStatus s = false ∧
      ∀ i, i < (retryGo o n bs).attemptsMade - 1 → transientOutcome (o (n + i)) = true := by
  induction bs generalizing n with
  | nil =>
    cases h : o n with
    | resp s0 lf0 =>
      by_cases hs : transientStatus s0 = true
      · rw [show retryGo o n [] = ⟨.transient, 1, []⟩ by simp [retryGo, h, hs]] at hres ⊢
        exact absurd hres (by simp)
      · rw [show retryGo o n [] = ⟨.returned s0 lf0, 1, []⟩ by simp [retryGo, h, hs]] at hres ⊢
        simp only at hres ⊢
        obtain ⟨hs1, hs2⟩ : s0 = s ∧ lf0 = lf := by
          cases hres; exact ⟨rfl, rfl⟩
        subst hs1; subst hs2
        refine ⟨by simpa using h, by simpa using hs, ?_⟩
        intro i hi
        omega
    | exc =>
      rw [show retryGo o n [] = ⟨.transient, 1, []⟩ by simp [retryGo, h]] at hres
      exact absurd hres (by simp)
  | cons b rest ih =>
    cases h : o n with
    | resp s0 lf0 =>
      by_cases hs : transientStatus s0 = true
      · have hstep : retryGo o n (b :: rest) =
            ⟨(retryGo o (n + 1) rest).result, (retryGo o (n + 1) rest).attemptsMade + 1,
              b :: (retryGo o (n + 1) rest).sleeps⟩ := by
          simp [retryGo, h, hs]
        rw [hstep] at hres ⊢
        simp only at hres ⊢
        obtain ⟨h1, h2, h3⟩ := ih (n + 1) hres
        have hb := retryGo_bounds rest o (n + 1)
        refine ⟨?_, h2, ?_⟩
        · have : n + ((retryGo o (n + 1) rest).attemptsMade + 1 - 1) =
              (n + 1) + ((retryGo o (n + 1) rest).attemptsMade - 1) := by omega
          rw [this]; exact h1
        · intro i hi
          cases i with
          | zero => simpa [transientOutcome, h] using hs
          | succ j =>
            have := h3 j (by omega)
            have harg : n + (j + 1) = (n + 1) + j := by omega
            rw [harg]; exact this
      · rw [show retryGo o n (b :: rest) = ⟨.returned s0 lf0, 1, []⟩ by
            simp [retryGo, h, hs]] at hres ⊢
        simp only at hres ⊢
        obtain ⟨hs1, hs2⟩ : s0 = s ∧ lf0 = lf := by
          cases hres; exact ⟨rfl, rfl⟩
        subst hs1; subst hs2
        refine ⟨by simpa using h, by simpa using hs, ?_⟩
        intro i hi
        omega
    | exc =>
      have hstep : retryGo o n (b :: rest) =
          ⟨(retryGo o (n + 1) rest).result, (retryGo o (n + 1) rest).attemptsMade + 1,
            b :: (retryGo o (n + 1) rest).sleeps⟩ := by
        simp [retryGo, h]
      rw [hstep] at hres ⊢
      simp only at hres ⊢
      obtain ⟨h1, h2, h3⟩ := ih (n + 1) hres
      have hb := retryGo_bounds rest o (n + 1)
      refine ⟨?_, h2, ?_⟩
      · have : n + ((retryGo o (n + 1) rest).attemptsMade + 1 - 1) =
            (n + 1) + ((retryGo o (n + 1) rest).attemptsMade - 1) := by omega
        rw [this]; exact h1
      · intro i hi
        cases i with
        | zero => simp [transientOutcome, h]
        | succ j =>
          have := h3 j (by omega)
          have harg : n + (j + 1) = (n + 1) + j := by omega
          rw [harg]; exact this

/-- C1: for every URL, `_request_with_retries` makes at most 4 HTTP
attempts; the sleeps performed between attempts are exactly the prefix of
the fixed schedule `[1, 2, 4]` determined by the number of attempts; a
429/5xx status or a network exception triggers a retry while any other
response is returned immediately (every non-final attempt failed
transiently and the final one is returned exactly when non-transient);
`TransientRequestError` is raised iff all 4 attempts fail transiently; in
particular outcomes 429, 429, 429, 200 return the 200 response after
sleeps `[1, 2, 4]`, and four 500s raise after the same sleeps. -/
theorem claim_c1_retry_client :
    (∀ o : ℕ → AttemptOutcome,
        1 ≤ (_request_with_retries o).attemptsMade ∧
          (_request_with_retries o).attemptsMade ≤ 4) ∧
    (∀ o : ℕ → AttemptOutcome,
        (_request_with_retries o).sleeps =
          backoffs.take ((_request_with_retries o).attemptsMade - 1)) ∧
    (∀ o : ℕ → AttemptOutcome,
        (_request_with_retries o).result = ReqResult.transient ↔
          ∀ i, i < 4 → transientOutcome (o i) = true) ∧
    (∀ (o : ℕ → AttemptOutcome) (s : ℕ) (lf : Option (List ForecastItem)),
        (_request_with_retries o).result = ReqResult.returned s lf →
          o ((_request_with_retries o).attemptsMade - 1) = AttemptOutcome.resp s lf ∧
            transientStatus s = false ∧
            ∀ i, i < (_request_with_retries o).attemptsMade - 1 →
              transientOutcome (o i) = true) ∧
    _request_with_retries
        (fun i => if i < 3 then AttemptOutcome.resp 429 none else AttemptOutcome.resp 200 none) =
      ⟨ReqResult.returned 200 none, 4, [1, 2, 4]⟩ ∧
    _request_with_retries (fun _ => AttemptOutcome.resp 500 none) =
      ⟨ReqResult.transient, 4, [1, 2, 4]⟩ := by
  refine ⟨?_, ?_, ?_, ?_, by rfl, by rfl⟩
  · intro o
    have := retryGo_bounds backoffs o 0
    simpa [_request_with_retries, backoffs] using this
  · intro o
    exact retryGo_sleeps backoffs o 0
  · intro o
    have := retryGo_transient_iff backoffs o 0
    simp only [_request_with_retries]
    rw [this]
    constructor
    · intro hall i hi
      have := hall i (by simpa [backoffs] using by omega)
      simpa using this
    · intro hall i hi
      have : i < 4 := by simp [backoffs] at hi; omega
      simpa using hall i this
  · intro o s lf hres
    have := retryGo_returned backoffs o 0 s lf hres
    simpa using this

/-- C1 witness: four 503 responses all fail transiently, so the client
raises `TransientRequestError`. -/
theorem claim_c1_retry_client_witness :
    (_request_with_retries (fun _ => AttemptOutcome.resp 503 none)).result =
      ReqResult.transient :=
  (claim_c1_retry_client.2.2.1 _).mpr (by decide)

/-- C2 counterexample: when every attempt returns HTTP 500 (the provider
call fails after retry exhaustion), `get_forecast_5d3h` raises —
`TransientRequestError` propagates — instead of returning the empty
list the claim promises. -/
theorem claim_c2_counterexample :
    forecastRaised (get_forecast_5d3h (fun _ => AttemptOutcome.resp 500 none)) = true ∧
      get_forecast_5d3h (fun _ => AttemptOutcome.resp 500 none) ≠
        Except.ok ([] : List ForecastItem) :=
  ⟨rfl, fun h => Except.noConfusion h⟩

/-- C2 (amended): when the retry client exhausts its retries
(`TransientRequestError`), the exception propagates out of
`get_forecast_5d3h`; the empty list is returned exactly for a returned
non-200 (non-retryable) status, and on a 200 the body's `list` field
(defaulting to `[]`) is returned. -/
theorem claim_c2_forecast_amended :
    (∀ o : ℕ → AttemptOutcome,
        (_request_with_retries o).result = ReqResult.transient →
          get_forecast_5d3h o = Except.error ()) ∧
    (∀ (o : ℕ → AttemptOutcome) (s : ℕ) (lf : Option (List ForecastItem)),
        (_request_with_retries o).result = ReqResult.returned s lf → s ≠ 200 →
          get_forecast_5d3h o = Except.ok []) ∧
    (∀ (o : ℕ → AttemptOutcome) (lf : Option (List ForecastItem)),
        (_request_with_retries o).result = ReqResult.returned 200 lf →
          get_forecast_5d3h o = Except.ok (lf.getD [])) := by
  refine ⟨?_, ?_, ?_⟩
  · intro o h
    simp [get_forecast_5d3h, h]
  · intro o s lf h hs
    simp [get_forecast_5d3h, h, hs]
  · intro o lf h
    simp [get_forecast_5d3h, h]

/-- C2 amended-claim witness: four 500s make the call raise; a single 404
response makes it return `[]`. -/
theorem claim_c2_forecast_amended_witness :
    get_forecast_5d3h (fun _ => AttemptOutcome.resp 500 none) = Except.error () ∧
      get_forecast_5d3h (fun _ => AttemptOutcome.resp 404 none) =
        Except.ok ([] : List ForecastItem) :=
  ⟨claim_c2_forecast_amended.1 _ rfl,
    claim_c2_forecast_amended.2.1 _ 404 none rfl (by decide)⟩

/-- C3 counterexample: an entry saved by a city-keyed lookup ("Paris",
with its resolved coordinates) IS matched by a purely coordinate-keyed
query for those coordinates — contradicting "a coordinate query never
matches a city-keyed entry". -/
theorem claim_c3_counterexample :
    _cache_matches_request (some "Paris") (some 1) (some 2) none (some 1) (some 2) = true := by
  show (_floats_close 1 1 && _floats_close 2 2) = true
  simp only [_floats_close]
  norm_num

/-- C3 (amended): a city-keyed query matches exactly when the entry holds
a string city equal after trimming and case-insensitive comparison (in
particular a city query never matches an entry without a city); a
coordinate-keyed query matches exactly when both stored coordinates are
within 1e-6 of the queried ones — and this holds whether or not the entry
is city-keyed, because `_save_cache` always stores the resolved
coordinates, so coordinate queries CAN match city-keyed entries. -/
theorem claim_c3_matches_amended :
    (∀ (e : SavedCacheEntry) (q : String),
        _cache_matches_request e.city (some e.lat) (some e.lon) (some q) none none =
          match e.city with
          | some c => pyNormalize c == pyNormalize q
          | none => false) ∧
    (∀ (e : SavedCacheEntry) (la lo : ℚ),
        _cache_matches_request e.city (some e.lat) (some e.lon) none (some la) (some lo) =
          (_floats_close e.lat la && _floats_close e.lon lo)) ∧
    (∀ a b : ℚ, _floats_close a b = true ↔ |a - b| ≤ 1 / 1000000) := by
  refine ⟨?_, ?_, ?_⟩
  · intro e q
    rcases e with ⟨c, la, lo, f, d⟩
    cases c <;> rfl
  · intro e la lo
    rcases e with ⟨c, ela, elo, f, d⟩
    cases c <;> rfl
  · intro a b
    simp [_floats_close]

/-- C4: with the default 3-hour maximum age, `_is_fresh` is true iff
`0 ≤ now - fetched_at ≤ 10800` seconds; an age of exactly 10800 s is
fresh, 10801 s is not, and a negative age (clock skew) is not fresh. -/
theorem claim_c4_is_fresh :
    (∀ now t : ℚ,
        _is_fresh now (some t) MAX_CACHE_AGE_SECONDS = true ↔
          0 ≤ now - t ∧ now - t ≤ 10800) ∧
    _is_fresh 10800 (some 0) MAX_CACHE_AGE_SECONDS = true ∧
    _is_fresh 10801 (some 0) MAX_CACHE_AGE_SECONDS = false ∧
    (∀ now t : ℚ, now - t < 0 →
        _is_fresh now (some t) MAX_CACHE_AGE_SECONDS = false) := by
  refine ⟨?_, ?_, ?_, ?_⟩
  · intro now t
    simp [_is_fresh, MAX_CACHE_AGE_SECONDS]
    norm_num
  · simp [_is_fresh, MAX_CACHE_AGE_SECONDS]
    norm_num
  · simp [_is_fresh, MAX_CACHE_AGE_SECONDS]
    norm_num
  · intro now t h
    simp only [_is_fresh, Bool.and_eq_false_iff, decide_eq_false_iff_not]
    exact Or.inl (not_le.mpr h)

/-- C4 witness: an entry "fetched" one second in the future is not
fresh. -/
theorem claim_c4_is_fresh_witness :
    _is_fresh 0 (some 1) MAX_CACHE_AGE_SECONDS = false :=
  claim_c4_is_fresh.2.2.2 0 1 (by norm_num)

/-- C9: analyzing an empty reading returns exactly the no-data dict —
status is the source's no-data string, `aqi` is null, and no
`exceeded_parameters` (nor any other optional) key is present, for either
value of `extended`. -/
theorem claim_c9_no_data :
    ∀ extended : Bool,
      analyze_air_pollution [] extended =
        some ⟨"Нет данных", none, none, none, none, none⟩ :=
  fun _ => rfl

/-! ## Properties of the AQI derivation -/

theorem thresholdOf_pos (k : String) (t : ℚ) (h : thresholdOf k = some t) : 0 < t := by
  simp only [thresholdOf, thresholdsTable, List.lookup] at h
  repeat' split at h
  all_goals simp_all
  all_goals (subst h; norm_num)

theorem deriveLevelStep_spec (acc : ℚ) (kv : String × CompVal) (acc' : ℚ)
    (h1 : 1 ≤ acc) (h : deriveLevelStep acc kv = some acc') :
    acc' = max acc (specPollutantLevel kv) := by
  obtain ⟨k, v⟩ := kv
  cases v with
  | vnull =>
    simp only [deriveLevelStep] at h
    obtain rfl : acc = acc' := by cases h; rfl
    simp only [specPollutantLevel]
    exact (max_eq_left h1).symm
  | vnum q =>
    simp only [deriveLevelStep, specPollutantLevel] at h ⊢
    cases hthr : thresholdOf (pyLower k) with
    | none =>
      rw [hthr] at h
      dsimp only at h ⊢
      obtain rfl : acc = acc' := by cases h; rfl
      exact (max_eq_left h1).symm
    | some t =>
      rw [hthr] at h
      dsimp only at h ⊢
      have ht : 0 < t := thresholdOf_pos _ _ hthr
      rw [if_neg ht.ne'] at h
      by_cases hgt : q > t
      · rw [if_pos hgt] at h
        by_cases hgt2 : q > t * (3 / 2)
        · rw [if_pos hgt2] at h
          obtain rfl : max acc 5 = acc' := by cases h; rfl
          rw [if_pos hgt2]
        · rw [if_neg hgt2, if_pos hgt] at h
          obtain rfl : max acc 4 = acc' := by cases h; rfl
          rw [if_neg hgt2, if_pos hgt]
      · rw [if_neg hgt] at h
        obtain rfl : acc = acc' := by cases h; rfl
        rw [if_neg (by push_neg at hgt ⊢; nlinarith), if_neg hgt]
        exact (max_eq_left h1).symm
  | vobj o =>
    simp only [deriveLevelStep, specPollutantLevel] at h ⊢
    cases hthr : thresholdOf (pyLower k) with
    | none =>
      rw [hthr] at h
      dsimp only at h
      obtain rfl : acc = acc' := by cases h; rfl
      exact (max_eq_left h1).symm
    | some t =>
      rw [hthr] at h
      dsimp only at h
      have ht : 0 < t := thresholdOf_pos _ _ hthr
      rw [if_neg ht.ne'] at h
      exact absurd h (by simp)

theorem deriveFold_spec (entries : List (String × CompVal)) :
    ∀ acc a : ℚ, 1 ≤ acc →
      List.foldlM deriveLevelStep acc entries = some a →
      a = (entries.map specPollutantLevel).foldl max acc := by
  induction entries with
  | nil =>
    intro acc a h1 h2
    simp only [List.foldlM_nil, Option.pure_def, Option.some.injEq] at h2
    simp [h2]
  | cons kv rest ih =>
    intro acc a h1 h2
    rw [List.foldlM_cons] at h2
    cases hstep : deriveLevelStep acc kv with
    | none => rw [hstep] at h2; simp at h2
    | some acc' =>
      rw [hstep] at h2
      simp only [Option.bind_eq_bind, Option.some_bind] at h2
      have hacc' : acc' = max acc (specPollutantLevel kv) :=
        deriveLevelStep_spec acc kv acc' h1 hstep
      have h1' : 1 ≤ acc' := by rw [hacc']; exact le_trans h1 (le_max_left _ _)
      have := ih acc' a h1' h2
      simp only [List.map_cons, List.foldl_cons]
      rw [this, hacc']

theorem analyzeFinish_aqi (a : ℚ) (comps : CompVal) (ext : Bool) (r : AirAnalysis)
    (h : analyzeFinish a comps ext = some r) : r.aqi = some a := by
  simp only [analyzeFinish] at h
  rw [Option.map_eq_some'] at h
  obtain ⟨r0, hr0, hfr⟩ := h
  have haqi0 : r0.aqi = some a := by
    by_cases ha : a ≥ 4
    · rw [if_pos ha] at hr0
      cases comps with
      | vobj entries =>
        rw [Option.map_eq_some'] at hr0
        obtain ⟨ex, _, hrex⟩ := hr0
        rw [← hrex]
      | vnull => simp at hr0
      | vnum q => simp at hr0
    · rw [if_neg ha] at hr0
      cases hr0
      rfl
  rw [← hfr]
  by_cases hext : ext = true
  · rw [if_pos hext]; exact haqi0
  · rw [if_neg hext]; exact haqi0

theorem foldDerive_pm25 :
    List.foldlM deriveLevelStep 1 [("pm2_5", CompVal.vnum 80)] = some 5 := by
  rw [List.foldlM_cons]
  have hstep : deriveLevelStep 1 ("pm2_5", CompVal.vnum 80) = some 5 := by
    simp only [deriveLevelStep]
    rw [show thresholdOf (pyLower "pm2_5") = some 50 from rfl]
    dsimp only
    rw [if_neg (by norm_num : ¬(50 : ℚ) = 0), if_pos (by norm_num : (80 : ℚ) > 50),
      if_pos (by norm_num : (80 : ℚ) > 50 * (3 / 2))]
    norm_num [max_def]
  rw [hstep]
  rfl

theorem round2_thirty : round2 ((80 : ℚ) - 50) = 30 := by
  have h30 : (80 : ℚ) - 50 = 30 := by norm_num
  rw [h30]
  simp only [round2]
  rw [show ((30 : ℚ) * 100) = ((3000 : ℤ) : ℚ) by norm_num, Int.floor_intCast]
  norm_num

theorem foldExceeded_pm25 :
    List.foldlM exceededStep [] [("pm2_5", CompVal.vnum 80)] =
      some [⟨"pm2_5", (80 : ℚ), 50, 30⟩] := by
  rw [List.foldlM_cons]
  have hstep : exceededStep [] ("pm2_5", CompVal.vnum 80) =
      some [⟨"pm2_5", (80 : ℚ), 50, 30⟩] := by
    simp only [exceededStep]
    rw [show thresholdOf (pyLower "pm2_5") = some 50 from rfl]
    dsimp only
    rw [if_neg (by norm_num : ¬(50 : ℚ) = 0), if_pos (by norm_num : (80 : ℚ) > 50),
      round2_thirty]
    rfl
  rw [hstep]
  rfl

theorem analyze_pm25_concrete :
    analyze_air_pollution
        [("main", CompVal.vobj []), ("components", CompVal.vobj [("pm2_5", CompVal.vnum 80)])]
        false =
      some ⟨"Очень плохо", some 5, some "Очень плохо",
        some [⟨"pm2_5", (80 : ℚ), 50, 30⟩], none, none⟩ := by
  show analyzeDerive (CompVal.vobj [("pm2_5", CompVal.vnum 80)]) false = _
  simp only [analyzeDerive]
  rw [foldDerive_pm25]
  simp only [Option.bind_eq_bind, Option.some_bind, analyzeFinish]
  rw [if_pos (by norm_num : (5 : ℚ) ≥ 4), foldExceeded_pm25]
  rfl

/-- C7 counterexample: the spec's literal reading
`analyze({components: {pm2_5: 80}})` — a dict WITHOUT a `'main'` key —
is treated by the source as the components mapping itself, so the key
`"components"` has no threshold and the derived AQI is 1, not the
claimed 5. -/
theorem claim_c7_counterexample :
    (analyze_air_pollution [("components", CompVal.vobj [("pm2_5", CompVal.vnum 80)])]
          false).map AirAnalysis.aqi = some (some 1) ∧
      ¬ (some (1 : ℚ) = some (5 : ℚ)) :=
  ⟨rfl, by norm_num⟩

/-- C7 (amended): when the argument carries a `'main'` key whose `aqi` is
absent or null, the AQI is derived from the `'components'` mapping as the
maximum, starting at level 1, of the per-pollutant levels (5 above 1.5×
threshold, 4 above the threshold, thresholds CO 9400, NO2 150, O3 140,
SO2 250, PM2.5 50, PM10 100); NO and NH3 never raise the level; in
particular `analyze({main: {}, components: {pm2_5: 80}})` yields AQI 5
with `exceeded_parameters = [{pm2_5, 80, 50, 30.0}]`.  An argument
without a `'main'` key is itself used as the components mapping (see the
counterexample). -/
theorem claim_c7_aqi_derivation_amended :
    (∀ (m entries : List (String × CompVal)) (extended : Bool) (r : AirAnalysis),
        (m.lookup "aqi" = none ∨ m.lookup "aqi" = some CompVal.vnull) →
        analyze_air_pollution
            [("main", CompVal.vobj m), ("components", CompVal.vobj entries)] extended =
          some r →
        ∃ a : ℚ, List.foldlM deriveLevelStep 1 entries = some a ∧
          r.aqi = some a ∧ a = (entries.map specPollutantLevel).foldl max 1) ∧
    (∀ (acc q : ℚ) (k : String), k = "no" ∨ k = "nh3" →
        deriveLevelStep acc (k, CompVal.vnum q) = some acc) ∧
    analyze_air_pollution
        [("main", CompVal.vobj []), ("components", CompVal.vobj [("pm2_5", CompVal.vnum 80)])]
        false =
      some ⟨"Очень плохо", some 5, some "Очень плохо",
        some [⟨"pm2_5", (80 : ℚ), 50, 30⟩], none, none⟩ := by
  refine ⟨?_, ?_, analyze_pm25_concrete⟩
  · intro m entries ext r haqi h
    have hmain : List.lookup "main"
        [("main", CompVal.vobj m), ("components", CompVal.vobj entries)] =
        some (CompVal.vobj m) := rfl
    have hcomps : List.lookup "components"
        [("main", CompVal.vobj m), ("components", CompVal.vobj entries)] =
        some (CompVal.vobj entries) := rfl
    simp only [analyze_air_pollution, List.isEmpty_cons, Bool.false_eq_true, if_false,
      hmain, hcomps] at h
    have hda : analyzeDerive (CompVal.vobj entries) ext = some r := by
      rcases haqi with h0 | h0 <;> rw [h0] at h <;> exact h
    simp only [analyzeDerive] at hda
    cases hfold : List.foldlM deriveLevelStep 1 entries with
    | none => rw [hfold] at hda; simp at hda
    | some a =>
      rw [hfold] at hda
      simp only [Option.bind_eq_bind, Option.some_bind] at hda
      exact ⟨a, rfl, analyzeFinish_aqi a _ ext r hda,
        deriveFold_spec entries 1 a le_rfl hfold⟩
  · intro acc q k hk
    have hthr : thresholdOf (pyLower k) = none := by
      rcases hk with h0 | h0 <;> subst h0 <;> rfl
    simp only [deriveLevelStep, hthr]

/-- C7 amended-claim witness: instantiating the derivation rule at
`{main: {}, components: {pm2_5: 80}}` with the analyzer's concrete
result. -/
theorem claim_c7_aqi_derivation_amended_witness :
    ∃ a : ℚ, List.foldlM deriveLevelStep 1 [("pm2_5", CompVal.vnum 80)] = some a ∧
      (AirAnalysis.mk "Очень плохо" (some 5) (some "Очень плохо")
          (some [⟨"pm2_5", (80 : ℚ), 50, 30⟩]) none none).aqi = some a ∧
      a = ([("pm2_5", CompVal.vnum 80)].map specPollutantLevel).foldl max 1 :=
  claim_c7_aqi_derivation_amended.1 [] [("pm2_5", CompVal.vnum 80)] false _
    (Or.inl rfl) claim_c7_aqi_derivation_amended.2.2

/-! ## Properties of the forecast grouping -/

theorem countAll_cons (d : String) (b : List ForecastItem)
    (g : List (String × List ForecastItem)) (x : ForecastItem) :
    countAll ((d, b) :: g) x = b.count x + countAll g x := by
  simp [countAll]

theorem addToBucket_count (acc : List (String × List ForecastItem)) (d : String)
    (it x : ForecastItem) :
    countAll (addToBucket acc d it) x = countAll acc x + (if x = it then 1 else 0) := by
  induction acc with
  | nil =>
    show countAll [(d, [it])] x = countAll [] x + (if x = it then 1 else 0)
    rw [countAll_cons]
    by_cases hx : x = it
    · subst hx; simp [countAll]
    · have hx2 : ¬ it = x := fun h0 => hx h0.symm
      simp [countAll, List.count_cons, hx, hx2]
  | cons p rest ih =>
    obtain ⟨dk, b⟩ := p
    by_cases hd : dk = d
    · subst hd
      rw [show addToBucket ((dk, b) :: rest) dk it = (dk, b ++ [it]) :: rest from by
        simp [addToBucket]]
      rw [countAll_cons, countAll_cons, List.count_append]
      by_cases hx : x = it
      · subst hx
        simp [List.count_cons]
        omega
      · have hx2 : ¬ it = x := fun h0 => hx h0.symm
        simp [List.count_cons, hx, hx2]
    · rw [show addToBucket ((dk, b) :: rest) d it = (dk, b) :: addToBucket rest d it from by
        simp [addToBucket, hd]]
      rw [countAll_cons, countAll_cons, ih]
      omega

theorem addToBucket_keys (acc : List (String × List ForecastItem)) (d : String)
    (it : ForecastItem) :
    (addToBucket acc d it).map Prod.fst =
      if d ∈ acc.map Prod.fst then acc.map Prod.fst else acc.map Prod.fst ++ [d] := by
  induction acc with
  | nil => simp [addToBucket]
  | cons p rest ih =>
    obtain ⟨dk, b⟩ := p
    by_cases hd : dk = d
    · subst hd; simp [addToBucket]
    · simp only [addToBucket, if_neg hd, List.map_cons, ih]
      have hne : ¬ d = dk := fun h0 => hd h0.symm
      by_cases hmem : d ∈ rest.map Prod.fst
      · simp [hmem, hne]
      · simp [hmem, hne]

theorem addToBucket_ok (acc : List (String × List ForecastItem)) (d : String)
    (it : ForecastItem)
    (hacc : ∀ p ∈ acc, ∀ x ∈ p.2, firstTok (dtTxtOf x) = some p.1)
    (hit : firstTok (dtTxtOf it) = some d) :
    ∀ p ∈ addToBucket acc d it, ∀ x ∈ p.2, firstTok (dtTxtOf x) = some p.1 := by
  induction acc with
  | nil =>
    intro p hp x hx
    simp only [addToBucket, List.mem_singleton] at hp
    subst hp
    simp only [List.mem_singleton] at hx
    subst hx
    exact hit
  | cons q rest ih =>
    obtain ⟨dk, b⟩ := q
    intro p hp x hx
    by_cases hd : dk = d
    · subst hd
      rw [show addToBucket ((dk, b) :: rest) dk it = (dk, b ++ [it]) :: rest from by
        simp [addToBucket]] at hp
      rcases List.mem_cons.mp hp with hp0 | hp0
      · subst hp0
        rcases List.mem_append.mp hx with hx0 | hx0
        · exact hacc (dk, b) (by simp) x hx0
        · rw [List.mem_singleton.mp hx0]
          exact hit
      · exact hacc p (by simp [hp0]) x hx
    · rw [show addToBucket ((dk, b) :: rest) d it = (dk, b) :: addToBucket rest d it from by
        simp [addToBucket, hd]] at hp
      rcases List.mem_cons.mp hp with hp0 | hp0
      · subst hp0
        exact hacc (dk, b) (by simp) x hx
      · exact ih (fun p2 hp2 => hacc p2 (by simp [hp2])) p hp0 x hx

theorem dedupStep_nodup (ds : List String) :
    ∀ seed : List String, seed.Nodup →
      (ds.foldl (fun a d => if d ∈ a then a else a ++ [d]) seed).Nodup := by
  induction ds with
  | nil => intro seed h; exact h
  | cons d rest ih =>
    intro seed h
    rw [List.foldl_cons]
    by_cases hd : d ∈ seed
    · rw [if_pos hd]; exact ih seed h
    · rw [if_neg hd]
      refine ih _ ?_
      simp [List.nodup_append, h, hd]

theorem groupGo_spec (l : List ForecastItem) :
    ∀ acc g : List (String × List ForecastItem), groupGo acc l = some g →
      (∀ x, countAll g x =
          countAll acc x + (if (dtTxtOf x).isEmpty then 0 else l.count x)) ∧
      g.map Prod.fst =
        (datesOf l).foldl (fun a d => if d ∈ a then a else a ++ [d]) (acc.map Prod.fst) ∧
      ((∀ p ∈ acc, ∀ x ∈ p.2, firstTok (dtTxtOf x) = some p.1) →
        ∀ p ∈ g, ∀ x ∈ p.2, firstTok (dtTxtOf x) = some p.1) := by
  induction l with
  | nil =>
    intro acc g h
    simp only [groupGo, Option.some.injEq] at h
    subst h
    refine ⟨?_, by simp [datesOf], fun hacc => hacc⟩
    intro x
    by_cases hx : (dtTxtOf x).isEmpty = true <;> simp [hx]
  | cons it rest ih =>
    intro acc g h
    by_cases hdt : (dtTxtOf it).isEmpty = true
    · simp only [groupGo] at h
      rw [if_pos hdt] at h
      obtain ⟨ih1, ih2, ih3⟩ := ih acc g h
      refine ⟨?_, ?_, ih3⟩
      · intro x
        rw [ih1 x]
        by_cases hx : (dtTxtOf x).isEmpty = true
        · simp [hx]
        · have hne : ¬ x = it := fun h0 => by rw [h0] at hx; exact hx hdt
          have hne2 : ¬ it = x := fun h0 => hne h0.symm
          simp only [hx, if_false]
          rw [List.count_cons]
          simp [hne, hne2]
      · rw [ih2]
        have : datesOf (it :: rest) = datesOf rest := by
          simp [datesOf, hdt]
        rw [this]
    · simp only [groupGo] at h
      rw [if_neg hdt] at h
      cases hft : firstTok (dtTxtOf it) with
      | none =>
        rw [hft] at h
        exact absurd h (by simp)
      | some date =>
        rw [hft] at h
        obtain ⟨ih1, ih2, ih3⟩ := ih (addToBucket acc date it) g h
        refine ⟨?_, ?_, ?_⟩
        · intro x
          rw [ih1 x, addToBucket_count]
          by_cases hx : (dtTxtOf x).isEmpty = true
          · have hne : ¬ x = it := fun h0 => by rw [h0] at hx; exact hdt hx
            simp [hx, hne]
          · have hcount : (it :: rest).count x = rest.count x + (if x = it then 1 else 0) := by
              rw [List.count_cons]
              by_cases hxit : x = it
              · simp [hxit]
              · have hxit2 : ¬ it = x := fun h0 => hxit h0.symm
                simp [hxit, hxit2]
            rw [if_neg hx, if_neg hx, hcount]
            omega
        · rw [ih2]
          have hdates : datesOf (it :: rest) = date :: datesOf rest := by
            simp [datesOf, hdt, hft]
          rw [hdates, List.foldl_cons, addToBucket_keys]
        · intro hacc
          exact ih3 (addToBucket_ok acc date it hacc hft)

/-- C6 counterexample: an item with no `dt_txt` is silently dropped by
`_group_forecast_by_days` — it appears in zero buckets, not exactly
one. -/
theorem claim_c6_counterexample :
    _group_forecast_by_days [⟨none, none, none, none, none, none⟩] = some [] ∧
      countAll [] ⟨none, none, none, none, none, none⟩ = 0 ∧ (0 : ℕ) ≠ 1 :=
  ⟨rfl, rfl, by norm_num⟩

/-- C6 (amended): `_group_forecast_by_days` partitions the items whose
`dt_txt` is present and non-empty: each such item occurs across the
buckets exactly as often as in the input (items with missing/empty
`dt_txt` are dropped), every bucket member's date token equals its
bucket's key, bucket keys are the first-seen-order deduplication of the
items' dates (hence duplicate-free); plus a concrete three-item
instance. -/
theorem claim_c6_group_partition_amended :
    (∀ (l : List ForecastItem) (g : List (String × List ForecastItem)),
        _group_forecast_by_days l = some g →
          (∀ x : ForecastItem,
              countAll g x = if (dtTxtOf x).isEmpty then 0 else l.count x) ∧
          (∀ p ∈ g, ∀ x ∈ p.2, firstTok (dtTxtOf x) = some p.1) ∧
          g.map Prod.fst = dedupFirst (datesOf l) ∧
          (g.map Prod.fst).Nodup) ∧
    _group_forecast_by_days
        [⟨some "2024-01-01 12:00:00", none, none, none, none, none⟩,
         ⟨some "2024-01-02 00:00:00", none, none, none, none, none⟩,
         ⟨some "2024-01-01 15:00:00", none, none, none, none, none⟩] =
      some [("2024-01-01",
              [⟨some "2024-01-01 12:00:00", none, none, none, none, none⟩,
               ⟨some "2024-01-01 15:00:00", none, none, none, none, none⟩]),
            ("2024-01-02",
              [⟨some "2024-01-02 00:00:00", none, none, none, none, none⟩])] := by
  refine ⟨?_, by rfl⟩
  intro l g h
  obtain ⟨h1, h2, h3⟩ := groupGo_spec l [] g h
  refine ⟨?_, h3 (fun p hp => absurd hp (List.not_mem_nil p)), ?_, ?_⟩
  · intro x
    rw [h1 x]
    simp [countAll]
  · rw [h2]
    rfl
  · rw [h2]
    exact dedupStep_nodup (datesOf l) _ (by simp)

/-- C6 amended-claim witness: the partition facts instantiated at a
concrete one-item list. -/
theorem claim_c6_group_partition_amended_witness :
    (∀ x : ForecastItem,
        countAll [("2024-01-01",
          [⟨some "2024-01-01 12:00:00", none, none, none, none, none⟩])] x =
          if (dtTxtOf x).isEmpty then 0
          else [(⟨some "2024-01-01 12:00:00", none, none, none, none, none⟩ :
              ForecastItem)].count x) ∧
      (∀ p ∈ [("2024-01-01",
            [(⟨some "2024-01-01 12:00:00", none, none, none, none, none⟩ :
              ForecastItem)])],
          ∀ x ∈ p.2, firstTok (dtTxtOf x) = some p.1) ∧
      ([("2024-01-01",
          [(⟨some "2024-01-01 12:00:00", none, none, none, none, none⟩ :
            ForecastItem)])].map Prod.fst =
        dedupFirst (datesOf
          [⟨some "2024-01-01 12:00:00", none, none, none, none, none⟩])) ∧
      ([("2024-01-01",
          [(⟨some "2024-01-01 12:00:00", none, none, none, none, none⟩ :
            ForecastItem)])].map Prod.fst).Nodup :=
  claim_c6_group_partition_amended.1
    [⟨some "2024-01-01 12:00:00", none, none, none, none, none⟩]
    [("2024-01-01", [⟨some "2024-01-01 12:00:00", none, none, none, none, none⟩])] rfl

/-! ## Properties of the daily summary -/


theorem foldlMin_spec (t : List ℚ) :
    ∀ h : ℚ, t.foldl min h ∈ h :: t ∧ ∀ u ∈ h :: t, t.foldl min h ≤ u := by
  induction t with
  | nil =>
    intro h
    refine ⟨by simp, ?_⟩
    intro u hu
    simp only [List.foldl_nil]
    rw [List.mem_singleton.mp hu]
  | cons a t2 ih =>
    intro h
    rw [List.foldl_cons]
    obtain ⟨hmem, hle⟩ := ih (min h a)
    constructor
    · rcases List.mem_cons.mp hmem with h0 | h0
      · rcases min_choice h a with hc | hc
        · exact List.mem_cons.mpr (Or.inl (h0.trans hc))
        · exact List.mem_cons.mpr (Or.inr (List.mem_cons.mpr (Or.inl (h0.trans hc))))
      · exact List.mem_cons.mpr (Or.inr (List.mem_cons.mpr (Or.inr h0)))
    · intro u hu
      rcases List.mem_cons.mp hu with h0 | h0
      · rw [h0]
        exact le_trans (hle (min h a) (by simp)) (min_le_left h a)
      · rcases List.mem_cons.mp h0 with h1 | h1
        · rw [h1]
          exact le_trans (hle (min h a) (by simp)) (min_le_right h a)
        · exact hle u (by simp [h1])

theorem foldlMax_spec (t : List ℚ) :
    ∀ h : ℚ, t.foldl max h ∈ h :: t ∧ ∀ u ∈ h :: t, u ≤ t.foldl max h := by
  induction t with
  | nil =>
    intro h
    refine ⟨by simp, ?_⟩
    intro u hu
    simp only [List.foldl_nil]
    rw [List.mem_singleton.mp hu]
  | cons a t2 ih =>
    intro h
    rw [List.foldl_cons]
    obtain ⟨hmem, hle⟩ := ih (max h a)
    constructor
    · rcases List.mem_cons.mp hmem with h0 | h0
      · rcases max_choice h a with hc | hc
        · exact List.mem_cons.mpr (Or.inl (h0.trans hc))
        · exact List.mem_cons.mpr (Or.inr (List.mem_cons.mpr (Or.inl (h0.trans hc))))
      · exact List.mem_cons.mpr (Or.inr (List.mem_cons.mpr (Or.inr h0)))
    · intro u hu
      rcases List.mem_cons.mp hu with h0 | h0
      · rw [h0]
        exact le_trans (le_max_left h a) (hle (max h a) (by simp))
      · rcases List.mem_cons.mp h0 with h1 | h1
        · rw [h1]
          exact le_trans (le_max_right h a) (hle (max h a) (by simp))
        · exact hle u (by simp [h1])

theorem pyFoldMode_spec (all : List String) :
    ∀ (t : List String) (h : String),
      ∃ pre post,
        h :: t = pre ++
            (t.foldl (fun best x => if all.count x > all.count best then x else best) h) ::
              post ∧
          (∀ y ∈ pre,
            all.count y <
              all.count
                (t.foldl (fun best x => if all.count x > all.count best then x else best) h)) ∧
          ∀ y ∈ h :: t,
            all.count y ≤
              all.count
                (t.foldl (fun best x => if all.count x > all.count best then x else best) h) := by
  intro t
  induction t with
  | nil =>
    intro h
    refine ⟨[], [], rfl, by simp, ?_⟩
    intro y hy
    simp only [List.foldl_nil]
    rw [List.mem_singleton.mp hy]
  | cons a t2 ih =>
    intro h
    rw [List.foldl_cons]
    by_cases hab : all.count a > all.count h
    · rw [if_pos hab]
      obtain ⟨pre, post, hsplit, hpre, hle⟩ := ih a
      cases pre with
      | nil =>
        simp only [List.nil_append] at hsplit
        have hra := (List.cons.inj hsplit).1
        refine ⟨[h], post, ?_, ?_, ?_⟩
        · rw [show ([h] : List String) ++ _ :: post = h :: (_ :: post) from rfl, ← hsplit]
        · intro y hy
          rw [List.mem_singleton.mp hy, ← hra]
          exact hab
        · intro y hy
          rcases List.mem_cons.mp hy with h0 | h0
          · rw [h0, ← hra]
            exact le_of_lt hab
          · exact hle y h0
      | cons p pre2 =>
        simp only [List.cons_append] at hsplit
        have hpa := (List.cons.inj hsplit).1
        have hrest := (List.cons.inj hsplit).2
        have ha_lt := hpre a (by rw [hpa]; exact List.mem_cons_self _ _)
        refine ⟨h :: a :: pre2, post, ?_, ?_, ?_⟩
        · simp only [List.cons_append]
          rw [← hrest]
        · intro y hy
          rcases List.mem_cons.mp hy with h0 | h0
          · rw [h0]
            exact lt_trans hab ha_lt
          · rcases List.mem_cons.mp h0 with h1 | h1
            · rw [h1]
              exact ha_lt
            · exact hpre y (List.mem_cons_of_mem p h1)
        · intro y hy
          rcases List.mem_cons.mp hy with h0 | h0
          · rw [h0]
            exact le_trans (le_of_lt hab) (hle a (List.mem_cons_self _ _))
          · exact hle y h0
    · rw [if_neg hab]
      obtain ⟨pre, post, hsplit, hpre, hle⟩ := ih h
      cases pre with
      | nil =>
        simp only [List.nil_append] at hsplit
        have hhr := (List.cons.inj hsplit).1
        refine ⟨[], a :: t2, ?_, by simp, ?_⟩
        · rw [List.nil_append, ← hhr]
        · intro y hy
          rcases List.mem_cons.mp hy with h0 | h0
          · rw [h0, ← hhr]
          · rcases List.mem_cons.mp h0 with h1 | h1
            · rw [h1, ← hhr]
              exact not_lt.mp hab
            · exact hle y (by simp [h1])
      | cons p pre2 =>
        simp only [List.cons_append] at hsplit
        have hph := (List.cons.inj hsplit).1
        have hrest := (List.cons.inj hsplit).2
        have hh_lt := hpre h (by rw [hph]; exact List.mem_cons_self _ _)
        refine ⟨h :: a :: pre2, post, ?_, ?_, ?_⟩
        · simp only [List.cons_append]
          rw [← hrest]
        · intro y hy
          rcases List.mem_cons.mp hy with h0 | h0
          · rw [h0]
            exact hh_lt
          · rcases List.mem_cons.mp h0 with h1 | h1
            · rw [h1]
              exact lt_of_le_of_lt (not_lt.mp hab) hh_lt
            · exact hpre y (List.mem_cons_of_mem p h1)
        · intro y hy
          rcases List.mem_cons.mp hy with h0 | h0
          · rw [h0]
            exact hle h (List.mem_cons_self _ _)
          · rcases List.mem_cons.mp h0 with h1 | h1
            · rw [h1]
              exact le_trans (not_lt.mp hab) (hle h (List.mem_cons_self _ _))
            · exact hle y (by simp [h1])

theorem pyAvg_eq (vs : List ℚ) :
    (vs ≠ [] → pyAvg vs = some (vs.sum / (vs.length : ℚ))) ∧
      (vs = [] → pyAvg vs = none) := by
  constructor
  · intro h
    rcases vs with _ | ⟨a, t⟩
    · exact absurd rfl h
    · rfl
  · intro h
    subst h
    rfl

theorem pyMin_spec (vs : List ℚ) :
    (∀ v, pyMin vs = some v → v ∈ vs ∧ ∀ u ∈ vs, v ≤ u) ∧
      (vs ≠ [] → (pyMin vs).isSome) := by
  rcases vs with _ | ⟨a, t⟩
  · exact ⟨fun v h => by simp [pyMin] at h, fun h => absurd rfl h⟩
  · constructor
    · intro v h
      simp only [pyMin, Option.some.injEq] at h
      rw [← h]
      exact foldlMin_spec t a
    · intro _
      rfl

theorem pyMax_spec (vs : List ℚ) :
    (∀ v, pyMax vs = some v → v ∈ vs ∧ ∀ u ∈ vs, u ≤ v) ∧
      (vs ≠ [] → (pyMax vs).isSome) := by
  rcases vs with _ | ⟨a, t⟩
  · exact ⟨fun v h => by simp [pyMax] at h, fun h => absurd rfl h⟩
  · constructor
    · intro v h
      simp only [pyMax, Option.some.injEq] at h
      rw [← h]
      exact foldlMax_spec t a
    · intro _
      rfl

/-- C8: on a non-empty bucket, `_calculate_daily_average` yields the
arithmetic mean of temperature/humidity/pressure/wind speed over the
items carrying the field (and `None` when no item does), the true
minimum and maximum temperature, and a most-frequent description whose
ties are broken by the first value encountered in the iteration over the
description set (`setOrder`); on the bucket `[{temp:10},{temp:20}]` it
yields `temp_avg = 15`, `temp_min = 10`, `temp_max = 20`; an empty
bucket yields the empty dict. -/
theorem claim_c8_daily_summary :
    (∀ (ord : List String) (l : List ForecastItem), l ≠ [] →
        ∃ s : DailySummary, _calculate_daily_average ord l = some s ∧
          (temps l ≠ [] →
            s.tempAvg = some ((temps l).sum / ((temps l).length : ℚ))) ∧
          (temps l = [] → s.tempAvg = none) ∧
          (∀ v, s.tempMin = some v → v ∈ temps l ∧ ∀ u ∈ temps l, v ≤ u) ∧
          (∀ v, s.tempMax = some v → v ∈ temps l ∧ ∀ u ∈ temps l, u ≤ v) ∧
          (temps l ≠ [] → s.tempMin.isSome ∧ s.tempMax.isSome) ∧
          (humidities l ≠ [] →
            s.humidityAvg = some ((humidities l).sum / ((humidities l).length : ℚ))) ∧
          (pressures l ≠ [] →
            s.pressureAvg = some ((pressures l).sum / ((pressures l).length : ℚ))) ∧
          (windSpeeds l ≠ [] →
            s.windSpeedAvg = some ((windSpeeds l).sum / ((windSpeeds l).length : ℚ))) ∧
          (descriptions l ≠ [] → (∀ y : String, y ∈ ord ↔ y ∈ descriptions l) →
            (∀ y ∈ descriptions l,
              (descriptions l).count y ≤ (descriptions l).count s.description) ∧
              ∃ pre post, ord = pre ++ s.description :: post ∧
                ∀ y ∈ pre,
                  (descriptions l).count y < (descriptions l).count s.description)) ∧
    (∃ s : DailySummary,
        _calculate_daily_average []
            [⟨none, some 10, none, none, none, none⟩,
             ⟨none, some 20, none, none, none, none⟩] = some s ∧
          s.tempAvg = some 15 ∧ s.tempMin = some 10 ∧ s.tempMax = some 20) ∧
    (∀ ord : List String, _calculate_daily_average ord [] = none) := by
  refine ⟨?_, ?_, fun ord => rfl⟩
  · intro ord l hne
    rcases l with _ | ⟨it0, l2⟩
    · exact absurd rfl hne
    refine ⟨_, rfl, ?_, ?_, ?_, ?_, ?_, ?_, ?_, ?_, ?_⟩
    · intro ht
      exact (pyAvg_eq _).1 ht
    · intro ht
      exact (pyAvg_eq _).2 ht
    · exact fun v h => (pyMin_spec _).1 v h
    · exact fun v h => (pyMax_spec _).1 v h
    · exact fun ht => ⟨(pyMin_spec _).2 ht, (pyMax_spec _).2 ht⟩
    · intro ht
      exact (pyAvg_eq _).1 ht
    · intro ht
      exact (pyAvg_eq _).1 ht
    · intro ht
      exact (pyAvg_eq _).1 ht
    · intro hdne hiff
      have hie : (descriptions (it0 :: l2)).isEmpty = false := by
        rcases hd2 : descriptions (it0 :: l2) with _ | ⟨d0, ds⟩
        · exact absurd hd2 hdne
        · rfl
      rcases hord : ord with _ | ⟨oh, ot⟩
      · obtain ⟨d0, hd0⟩ := List.exists_mem_of_ne_nil _ hdne
        have := (hiff d0).mpr hd0
        rw [hord] at this
        exact absurd this (List.not_mem_nil d0)
      · have hdesc :
            (if (descriptions (it0 :: l2)).isEmpty then "N/A"
              else
                match pyMaxByCount (descriptions (it0 :: l2)) (oh :: ot) with
                | some d => d
                | none => "N/A") =
            ot.foldl
              (fun best x =>
                if (descriptions (it0 :: l2)).count x >
                    (descriptions (it0 :: l2)).count best then x else best) oh := by
          rw [if_neg (by rw [hie]; exact Bool.false_ne_true)]
          rfl
        dsimp only
        rw [hdesc]
        obtain ⟨pre, post, hsplit, hpre, hle⟩ :=
          pyFoldMode_spec (descriptions (it0 :: l2)) ot oh
        refine ⟨?_, pre, post, hsplit, hpre⟩
        intro y hy
        exact hle y (by rw [← hord] at hsplit ⊢; exact hord ▸ (hiff y).mpr hy)
  · refine ⟨⟨some 15, some 10, some 20, none, none, none, "N/A",
      [⟨none, some 10, none, none, none, none⟩, ⟨none, some 20, none, none, none, none⟩]⟩,
      ?_, rfl, rfl, rfl⟩
    have e1 : pyAvg (temps
        [⟨none, some 10, none, none, none, none⟩,
         ⟨none, some 20, none, none, none, none⟩]) = some 15 := by
      rw [show temps
        [(⟨none, some 10, none, none, none, none⟩ : ForecastItem),
         ⟨none, some 20, none, none, none, none⟩] = [10, 20] from rfl]
      simp [pyAvg]
      norm_num
    rw [show _calculate_daily_average []
        [(⟨none, some 10, none, none, none, none⟩ : ForecastItem),
         ⟨none, some 20, none, none, none, none⟩] =
      some
        { tempAvg := pyAvg (temps
            [⟨none, some 10, none, none, none, none⟩,
             ⟨none, some 20, none, none, none, none⟩])
          tempMin := some 10
          tempMax := some 20
          humidityAvg := none
          pressureAvg := none
          windSpeedAvg := none
          description := "N/A"
          forecasts :=
            [⟨none, some 10, none, none, none, none⟩,
             ⟨none, some 20, none, none, none, none⟩] } from rfl, e1]

/-- C8 witness: the summary facts instantiated at a concrete one-item
bucket whose single description "a" is the mode. -/
theorem claim_c8_daily_summary_witness :
    ∃ s : DailySummary,
      _calculate_daily_average ["a"] [⟨none, none, none, none, none, some "a"⟩] = some s ∧
        ∃ pre post, ["a"] = pre ++ s.description :: post := by
  obtain ⟨s, hs, _, _, _, _, _, _, _, _, hmode⟩ :=
    claim_c8_daily_summary.1 ["a"] [⟨none, none, none, none, none, some "a"⟩]
      (by intro h0; cases h0)
  have hd : descriptions [(⟨none, none, none, none, none, some "a"⟩ : ForecastItem)] =
      ["a"] := rfl
  obtain ⟨_, pre, post, hsplit, _⟩ :=
    hmode (by rw [hd]; intro h0; cases h0) (fun y => by rw [hd])
  exact ⟨s, hs, pre, post, hsplit⟩

/-! ## Properties of the gateway and the interactive fallback -/

/-- C10: calling `get_current_weather` with no city (None or the empty
string) and an incomplete coordinate pair returns None without issuing
any HTTP request and without writing the cache file (its effect trace is
empty). -/
theorem claim_c10_no_input_no_effect :
    ∀ (env : GwEnv) (city : Option String) (lat lon : Option ℚ),
      (city = none ∨ city = some "") → (lat = none ∨ lon = none) →
      get_current_weather env city lat lon = (Except.ok none, ([] : List Ev)) := by
  intro env city lat lon hc hll
  have h1 : (city.getD "").isEmpty = true := by
    rcases hc with h | h <;> subst h <;> rfl
  have h2 : (lat.isSome && lon.isSome) = false := by
    rcases hll with h | h <;> subst h <;> simp
  simp [get_current_weather, h1, h2]

/-- C10 witness: no city and only a longitude — the call is a no-op
returning None. -/
theorem claim_c10_no_input_no_effect_witness :
    get_current_weather ⟨Except.ok none, Except.ok none⟩ none none (some 5) =
      (Except.ok none, ([] : List Ev)) :=
  claim_c10_no_input_no_effect ⟨Except.ok none, Except.ok none⟩ none none (some 5)
    (Or.inl rfl) (Or.inl rfl)

theorem gw_trace_no_cacheRead (env : GwEnv) (city : Option String) (lat lon : Option ℚ) :
    Ev.cacheRead ∉ (get_current_weather env city lat lon).2 := by
  rcases env with ⟨g, w⟩
  by_cases hc : (city.getD "").isEmpty
  · by_cases hll : (lat.isSome && lon.isSome) = true
    · rcases w with we | ow
      · simp [get_current_weather, hc, hll]
      · rcases ow with _ | w0 <;> simp [get_current_weather, hc, hll]
    · simp [get_current_weather, hc, hll]
  · rcases g with ge | og
    · simp [get_current_weather, hc]
    · rcases og with _ | c0
      · simp [get_current_weather, hc]
      · rcases w with we | ow
        · simp [get_current_weather, hc]
        · rcases ow with _ | w0 <;> simp [get_current_weather, hc]

theorem liveAttempt_no_cacheRead (env : GwEnv) (city : Option String)
    (lat lon : Option ℚ) (r : Except Unit (Option Payload)) (tr0 : List Ev)
    (h : liveAttempt env city lat lon = some (r, tr0)) : Ev.cacheRead ∉ tr0 := by
  rcases city with _ | c
  · rcases lat with _ | la <;> rcases lon with _ | lo <;>
      simp only [liveAttempt] at h
    · exact absurd h (by simp)
    · exact absurd h (by simp)
    · exact absurd h (by simp)
    · rw [Option.some.injEq] at h
      have := congrArg Prod.snd h
      simp only at this
      rw [← this]
      exact gw_trace_no_cacheRead env none (some la) (some lo)
  · simp only [liveAttempt, Option.some.injEq] at h
    have := congrArg Prod.snd h
    simp only at this
    rw [← this]
    exact gw_trace_no_cacheRead env (some c) none none


/-- C5: in `_fetch_weather_interactive` the cache file is read exactly
when the live fetch raised `TransientRequestError` (never before the
live attempt — gateway traces contain no cache read — and never on the
success or no-input paths), and a cached payload is returned only when
the live fetch raised, the entry is fresher than 3 hours, it matches the
request key, and the user accepted the prompt. -/
theorem claim_c5_cache_fallback :
    (∀ (env : GwEnv) (c : Option String) (la lo : Option ℚ),
        Ev.cacheRead ∉ (get_current_weather env c la lo).2) ∧
    (∀ (env : GwEnv) (cache : Option LoadedCache) (now : ℚ) (ans : String)
        (city : Option String) (lat lon : Option ℚ),
        (Ev.cacheRead ∈ (_fetch_weather_interactive env cache now ans city lat lon).2 ↔
          ∃ tr0, liveAttempt env city lat lon = some (Except.error (), tr0)) ∧
        (∀ tr0, liveAttempt env city lat lon = some (Except.error (), tr0) →
          Ev.cacheRead ∉ tr0 ∧
            ((_fetch_weather_interactive env cache now ans city lat lon).2 =
                tr0 ++ [Ev.cacheRead] ∨
              (_fetch_weather_interactive env cache now ans city lat lon).2 =
                tr0 ++ [Ev.cacheRead, Ev.askUser])) ∧
        (∀ (w : Option Payload) (tr0 : List Ev),
          liveAttempt env city lat lon = some (Except.ok w, tr0) →
            _fetch_weather_interactive env cache now ans city lat lon = (w, tr0)) ∧
        (liveAttempt env city lat lon = none →
          _fetch_weather_interactive env cache now ans city lat lon = (none, [])) ∧
        (∀ w : Payload,
          (_fetch_weather_interactive env cache now ans city lat lon).1 = some w →
            (∃ tr0, liveAttempt env city lat lon = some (Except.ok (some w), tr0)) ∨
              ∃ ce, (∃ tr0, liveAttempt env city lat lon = some (Except.error (), tr0)) ∧
                cache = some ce ∧
                _is_fresh now ce.fetchedAt.join MAX_CACHE_AGE_SECONDS = true ∧
                _cache_matches_request ce.city ce.lat ce.lon city lat lon = true ∧
                answerYes ans = true ∧ ce.data = some w)) := by
  refine ⟨gw_trace_no_cacheRead, ?_⟩
  intro env cache now ans city lat lon
  cases hL : liveAttempt env city lat lon with
  | none =>
    have hf : _fetch_weather_interactive env cache now ans city lat lon = (none, []) := by
      simp only [_fetch_weather_interactive, hL]
    refine ⟨?_, ?_, ?_, fun _ => hf, ?_⟩
    · rw [hf]
      simp
    · intro tr0 htr
      exact absurd htr (by simp)
    · intro w tr0 htr
      exact absurd htr (by simp)
    · intro w hw
      rw [hf] at hw
      exact absurd hw (by simp)
  | some p =>
    rcases p with ⟨res, tr0⟩
    cases res with
    | ok w0 =>
      have hnc := liveAttempt_no_cacheRead env city lat lon _ _ hL
      have hf : _fetch_weather_interactive env cache now ans city lat lon = (w0, tr0) := by
        simp only [_fetch_weather_interactive, hL]
      refine ⟨?_, ?_, ?_, ?_, ?_⟩
      · rw [hf]
        constructor
        · intro hmem
          exact absurd hmem hnc
        · rintro ⟨tr1, htr⟩
          simp at htr
      · intro tr1 htr
        simp at htr
      · intro w tr1 htr
        simp only [Option.some.injEq, Prod.mk.injEq, Except.ok.injEq] at htr
        rw [hf, ← htr.1, ← htr.2]
      · intro htr
        exact absurd htr (by simp)
      · intro w hw
        rw [hf] at hw
        simp only at hw
        left
        exact ⟨tr0, by rw [hw]⟩
    | error e =>
      cases e
      rcases cache with _ | ce
      · have hf : _fetch_weather_interactive env none now ans city lat lon =
            (none, tr0 ++ [Ev.cacheRead]) := by
          simp only [_fetch_weather_interactive, hL]
        refine ⟨?_, ?_, ?_, ?_, ?_⟩
        · rw [hf]
          simp
        · intro tr1 htr
          simp only [Option.some.injEq, Prod.mk.injEq] at htr
          rw [hf, ← htr.2]
          exact ⟨liveAttempt_no_cacheRead env city lat lon _ _ hL, Or.inl rfl⟩
        · intro w tr1 htr
          simp at htr
        · intro htr
          exact absurd htr (by simp)
        · intro w hw
          rw [hf] at hw
          exact absurd hw (by simp)
      · by_cases hcond : (_is_fresh now ce.fetchedAt.join MAX_CACHE_AGE_SECONDS &&
            _cache_matches_request ce.city ce.lat ce.lon city lat lon) = true
        · by_cases hans : answerYes ans = true
          · have hf : _fetch_weather_interactive env (some ce) now ans city lat lon =
                (ce.data, (tr0 ++ [Ev.cacheRead]) ++ [Ev.askUser]) := by
              simp only [_fetch_weather_interactive, hL, hcond, hans, if_true]
            refine ⟨?_, ?_, ?_, ?_, ?_⟩
            · rw [hf]
              simp
            · intro tr1 htr
              simp only [Option.some.injEq, Prod.mk.injEq] at htr
              rw [hf, ← htr.2]
              refine ⟨liveAttempt_no_cacheRead env city lat lon _ _ hL, Or.inr ?_⟩
              simp
            · intro w tr1 htr
              simp at htr
            · intro htr
              exact absurd htr (by simp)
            · intro w hw
              rw [hf] at hw
              simp only at hw
              right
              rw [Bool.and_eq_true] at hcond
              exact ⟨ce, ⟨tr0, rfl⟩, rfl, hcond.1, hcond.2, hans, hw⟩
          · have hf : _fetch_weather_interactive env (some ce) now ans city lat lon =
                (none, (tr0 ++ [Ev.cacheRead]) ++ [Ev.askUser]) := by
              simp only [_fetch_weather_interactive, hL, hcond, if_true]
              rw [if_neg hans]
            refine ⟨?_, ?_, ?_, ?_, ?_⟩
            · rw [hf]
              simp
            · intro tr1 htr
              simp only [Option.some.injEq, Prod.mk.injEq] at htr
              rw [hf, ← htr.2]
              refine ⟨liveAttempt_no_cacheRead env city lat lon _ _ hL, Or.inr ?_⟩
              simp
            · intro w tr1 htr
              simp at htr
            · intro htr
              exact absurd htr (by simp)
            · intro w hw
              rw [hf] at hw
              exact absurd hw (by simp)
        · have hf : _fetch_weather_interactive env (some ce) now ans city lat lon =
              (none, tr0 ++ [Ev.cacheRead]) := by
            simp only [_fetch_weather_interactive, hL]
            rw [if_neg hcond]
          refine ⟨?_, ?_, ?_, ?_, ?_⟩
          · rw [hf]
            simp
          · intro tr1 htr
            simp only [Option.some.injEq, Prod.mk.injEq] at htr
            rw [hf, ← htr.2]
            exact ⟨liveAttempt_no_cacheRead env city lat lon _ _ hL, Or.inl rfl⟩
          · intro w tr1 htr
            simp at htr
          · intro htr
            exact absurd htr (by simp)
          · intro w hw
            rw [hf] at hw
            exact absurd hw (by simp)

/-- C5 witness: a concrete interaction where the live fetch raises, the
cached entry for city "x" is fresh and matching, the user accepts, and
the cached payload 77 is substituted — instantiating the
only-when-fresh-matching-accepted characterisation. -/
theorem claim_c5_cache_fallback_witness :
    (∃ tr0, liveAttempt ⟨Except.error (), Except.error ()⟩ (some "x") none none =
        some (Except.ok (some 77), tr0)) ∨
      ∃ ce, (∃ tr0, liveAttempt ⟨Except.error (), Except.error ()⟩ (some "x") none none =
          some (Except.error (), tr0)) ∧
        (some (⟨some "x", some 1, some 2, some (some 0), some 77⟩ : LoadedCache) = some ce) ∧
        _is_fresh 100 ce.fetchedAt.join MAX_CACHE_AGE_SECONDS = true ∧
        _cache_matches_request ce.city ce.lat ce.lon (some "x") none none = true ∧
        answerYes "y" = true ∧ ce.data = some 77 := by
  have hw : (_fetch_weather_interactive ⟨Except.error (), Except.error ()⟩
      (some ⟨some "x", some 1, some 2, some (some 0), some 77⟩) 100 "y"
      (some "x") none none).1 = some 77 := by
    simp only [_fetch_weather_interactive,
      show liveAttempt ⟨Except.error (), Except.error ()⟩ (some "x") none none =
        some (Except.error (), [Ev.geocodeHttp]) from rfl]
    show ((if _is_fresh 100 (Option.join (some (some 0))) MAX_CACHE_AGE_SECONDS &&
        _cache_matches_request (some "x") (some 1) (some 2) (some "x") none none = true then
        (if answerYes "y" = true
          then ((some 77 : Option Payload), [Ev.geocodeHttp] ++ [Ev.cacheRead] ++ [Ev.askUser])
          else (none, [Ev.geocodeHttp] ++ [Ev.cacheRead] ++ [Ev.askUser]))
      else ((none : Option Payload), [Ev.geocodeHttp] ++ [Ev.cacheRead])) :
        Option Payload × List Ev).1 = some 77
    have hfresh : _is_fresh 100 (Option.join (some (some (0 : ℚ)))) MAX_CACHE_AGE_SECONDS =
        true := by
      show _is_fresh 100 (some 0) MAX_CACHE_AGE_SECONDS = true
      simp [_is_fresh, MAX_CACHE_AGE_SECONDS]
      norm_num
    rw [hfresh,
      show _cache_matches_request (some "x") (some 1) (some 2) (some "x") none none = true from
        rfl,
      show answerYes "y" = true from rfl]
    simp
  exact (claim_c5_cache_fallback.2 ⟨Except.error (), Except.error ()⟩
    (some ⟨some "x", some 1, some 2, some (some 0), some 77⟩) 100 "y"
    (some "x") none none).2.2.2.2 77 hw

/-- C3 amended-claim witness: the coordinate-branch equation evaluated at
a concrete city-keyed entry, and the tolerance check at equal
coordinates. -/
theorem claim_c3_matches_amended_witness :
    _cache_matches_request (some "Berlin") (some 1) (some 2) none (some 1) (some 2) =
      (_floats_close 1 1 && _floats_close 2 2) ∧ _floats_close 1 1 = true :=
  ⟨claim_c3_matches_amended.2.1 ⟨some "Berlin", 1, 2, 0, 0⟩ 1 2,
    (claim_c3_matches_amended.2.2 1 1).mpr (by norm_num)⟩
